import Mathlib

/-!
# Watermark preparation and compositing (processing/watermark.go)

A shallow embedding of `prepareWatermark`, `applyWatermark` and `watermark`.

* A finite Go `float64` value is represented by the rational it denotes.  The
  `float64` products that `watermark.go` computes itself (lines 43, 49 and
  110) are not exact products of rationals: the multiplication is the
  parameter `Deps.mulFloat64`.  Comparisons of `float64` values are exact.
* Go `int` values are unbounded integers, with `/` on `int` rendered as
  truncating division.
* The image engine (package `vips`) is external.  Every engine call that can
  fail is recorded as an `Op` in a trace, and an `Engine` decides from the
  calls made so far whether the next call fails and with which error.
* The identity of the two images is fixed by the operation: `load`, `stage`,
  `copyMemory`, `replicate`, `stripAll` and `clear` act on the watermark image
  `wm`, `importColourProfile` and `rgbColourspace` act on the host image `img`,
  and `applyWatermark` blends `wm` into `img`.
-/

namespace Processing

/-! ## Data model -/

/-- Gravity descriptor of package `options`: an anchor selector and two offsets. -/
structure GravityOptions where
  GravityType : Nat
  X : ℚ
  Y : ℚ
deriving DecidableEq

/-- Watermark options of package `options`. -/
structure WatermarkOptions where
  Enabled : Bool
  Opacity : ℚ
  Replicate : Bool
  Gravity : GravityOptions
  Scale : ℚ
deriving DecidableEq

/-- Padding part of the processing options. -/
structure PaddingOptions where
  Enabled : Bool
  Top : Int
  Right : Int
  Bottom : Int
  Left : Int
deriving DecidableEq

/-- Resizing types of package `options`; `prepareWatermark` selects `ResizeFit`. -/
inductive ResizeType where
  | ResizeFit
  | ResizeFill
  | ResizeFillDown
  | ResizeForce
  | ResizeAuto
deriving DecidableEq

/-- The fields of the processing options that `prepareWatermark` writes. -/
structure ProcessingOptions where
  ResizingType : ResizeType
  Width : Int
  Height : Int
  Dpr : ℚ
  Enlarge : Bool
  Format : Nat
  Padding : PaddingOptions
deriving DecidableEq

/-- Watermark source of package `imagedata`: the declared type and the bytes. -/
structure ImageData where
  ImgType : Nat
  Data : List Nat
deriving DecidableEq

/-- Stages a pipeline is made of (each one is a function of the repository
that receives the image, the processing options and the image data). -/
inductive Stage where
  | prepare
  | scaleOnLoad
  | importColorProfile
  | scale
  | rotateAndFlip
  | padding
deriving DecidableEq

/-- Calls into the engine that return an error value, plus the release of the
watermark image. -/
inductive Op where
  | load (d : ImageData) (shrink : Int) (scale : ℚ) (pages : Int)
  | stage (s : Stage) (po : ProcessingOptions) (d : ImageData)
  | copyMemory
  | replicate (width height : Int)
  | stripAll
  | importColourProfile
  | rgbColourspace
  | applyWatermark (left top : Int) (opacity : ℚ)
  | clear
deriving DecidableEq

/-- Host image as `applyWatermark` reads it on entry. -/
structure HostImage where
  Width : Int
  Height : Int
  ColourProfileImported : Bool
deriving DecidableEq

/-- The engine: whether a call fails (and with which error) given the calls
made before it, and the size of the watermark image after those calls. -/
structure Engine (ε : Type) where
  fail : List Op → Op → Option ε
  wmWidth : List Op → Int
  wmHeight : List Op → Int

/-- What `watermark.go` uses and does not define, taken as parameters: the
default processing options, the placement resolver and the configured opacity
multiplier, which live in other files of the repository, and the `float64`
multiplication of the machine (the product rounded to a `float64`). -/
structure Deps where
  NewProcessingOptions : ProcessingOptions
  calcPosition : Int → Int → Int → Int → GravityOptions → ℚ → Bool → Int × Int
  WatermarkOpacity : ℚ
  mulFloat64 : ℚ → ℚ → ℚ

/-- How a call ends abnormally: an engine error, or the run-time fault of an
integer division by zero. -/
inductive Fault (ε : Type) where
  | engine (e : ε)
  | divideByZero
deriving DecidableEq

/-- A computation: from the trace so far to a result and the extended trace. -/
abbrev Exec (ε : Type) (α : Type) := List Op → Except (Fault ε) α × List Op

/-- Return without touching the engine. -/
def Exec.ret {ε α : Type} (a : α) : Exec ε α := fun tr => (.ok a, tr)

/-- Sequencing with early return on error. -/
def Exec.andThen {ε α β : Type} (m : Exec ε α) (f : α → Exec ε β) : Exec ε β :=
  fun tr =>
    match m tr with
    | (.ok a, tr1) => f a tr1
    | (.error e, tr1) => (.error e, tr1)

/-- One fallible engine call: it is recorded, and its error, if any, is returned. -/
def call {ε : Type} (E : Engine ε) (op : Op) : Exec ε Unit :=
  fun tr =>
    match E.fail tr op with
    | none => (.ok (), tr ++ [op])
    | some e => (.error (.engine e), tr ++ [op])

/-! ## Numeric helpers -/

/-- Modelled from the spec: `imath.RoundToEven` is not among the sources.  The
spec has it round to an even pixel count (round-even: offsets and scaled
dimensions must round to even pixel counts): the even integer nearest to `a`.
An odd integer lies midway between two even ones; the upper one is taken, and
no statement below depends on that choice. -/
def RoundToEven (a : ℚ) : Int := 2 * ⌊(a + 1) / 2⌋

/-- Modelled from the spec: `imath.ScaleToEven` is not among the sources; the
spec gives it as `round-even(dim * s)`. -/
def ScaleToEven (a : Int) (scale : ℚ) : Int := RoundToEven ((a : ℚ) * scale)

/-- Modelled from the spec: `imath.Max` is not among the sources; the spec
gives it as `max`. -/
def Max (a b : Int) : Int := if a > b then a else b

/-! ## prepareWatermark -/

/-- The stages of `watermarkPipeline`, in order. -/
def watermarkPipeline : List Stage :=
  [.prepare, .scaleOnLoad, .importColorProfile, .scale, .rotateAndFlip, .padding]

/-- Modelled from the spec: `pipeline.Run` is not among the sources; the spec
gives it as the stages in their fixed order, the first failing stage ending
the run with its error. -/
def pipelineRun {ε : Type} (E : Engine ε) (po : ProcessingOptions) (d : ImageData) :
    List Stage → Exec ε Unit
  | [] => Exec.ret ()
  | s :: rest => (call E (.stage s po d)).andThen fun _ => pipelineRun E po d rest

/-- Lines 40 to 52: the offsets `offX`, `offY` of a replicated watermark. -/
def replicateOffsets (D : Deps) (opts : WatermarkOptions) (imgWidth imgHeight : Int)
    (offsetScale : ℚ) : Int × Int :=
  let offX :=
    if |opts.Gravity.X| ≥ 1 then RoundToEven (D.mulFloat64 opts.Gravity.X offsetScale)
    else ScaleToEven imgWidth opts.Gravity.X
  let offY :=
    if |opts.Gravity.Y| ≥ 1 then RoundToEven (D.mulFloat64 opts.Gravity.Y offsetScale)
    else ScaleToEven imgHeight opts.Gravity.Y
  (offX, offY)

/-- Lines 54 to 58: the padding made of the two offsets. -/
def replicatePadding (offX offY : Int) : PaddingOptions :=
  { Enabled := true, Left := Int.tdiv offX 2, Right := offX - Int.tdiv offX 2,
    Top := Int.tdiv offY 2, Bottom := offY - Int.tdiv offY 2 }

/-- Lines 28 to 59: the processing options the watermark is transformed with. -/
def watermarkPO (D : Deps) (wmData : ImageData) (opts : WatermarkOptions)
    (imgWidth imgHeight : Int) (offsetScale : ℚ) : ProcessingOptions :=
  let po := D.NewProcessingOptions
  let po := { po with ResizingType := .ResizeFit, Dpr := 1, Enlarge := true,
                      Format := wmData.ImgType }
  let po :=
    if opts.Scale > 0 then
      { po with Width := Max (ScaleToEven imgWidth opts.Scale) 1,
                Height := Max (ScaleToEven imgHeight opts.Scale) 1 }
    else po
  if opts.Replicate then
    let off := replicateOffsets D opts imgWidth imgHeight offsetScale
    { po with Padding := replicatePadding off.1 off.2 }
  else po

/-- The function `prepareWatermark`; the watermark image `wm` is the implicit
target of every call. -/
def prepareWatermark {ε : Type} (E : Engine ε) (D : Deps) (wmData : ImageData)
    (opts : WatermarkOptions) (imgWidth imgHeight : Int) (offsetScale : ℚ)
    (framesCount : Int) : Exec ε Unit :=
  (call E (.load wmData 1 1 1)).andThen fun _ =>
  (pipelineRun E (watermarkPO D wmData opts imgWidth imgHeight offsetScale) wmData
      watermarkPipeline).andThen fun _ =>
  (if opts.Replicate || decide (framesCount > 1) then call E .copyMemory
   else Exec.ret ()).andThen fun _ =>
  (if opts.Replicate then call E (.replicate imgWidth imgHeight)
   else Exec.ret ()).andThen fun _ =>
  call E .stripAll

/-! ## applyWatermark -/

/-- The loop of lines 128 to 133, with the number of iterations left. -/
def frameLoop {ε : Type} (E : Engine ε) (left : Int) (opacity : ℚ) (frameHeight : Int) :
    Nat → Int → Exec ε Unit
  | 0, _ => Exec.ret ()
  | n + 1, top =>
    (call E (.applyWatermark left top opacity)).andThen fun _ =>
    frameLoop E left opacity frameHeight n (top + frameHeight)

/-- Lines 92 to 135 of `applyWatermark`: everything but the deferred release. -/
def applyWatermarkBody {ε : Type} (E : Engine ε) (D : Deps) (img : HostImage)
    (wmData : ImageData) (opts : WatermarkOptions) (offsetScale : ℚ)
    (framesCount : Int) : Exec ε Unit :=
  let width := img.Width
  let height := img.Height
  if framesCount = 0 then fun tr => (.error .divideByZero, tr)
  else
    let frameHeight := Int.tdiv height framesCount
    (prepareWatermark E D wmData opts width frameHeight offsetScale framesCount).andThen
    fun _ =>
    (if !img.ColourProfileImported then call E .importColourProfile
     else Exec.ret ()).andThen fun _ =>
    (call E .rgbColourspace).andThen fun _ =>
    let opacity := D.mulFloat64 opts.Opacity D.WatermarkOpacity
    if opts.Replicate && decide (framesCount > 1) then
      (call E (.replicate width height)).andThen fun _ =>
      call E (.applyWatermark 0 0 opacity)
    else
      fun tr =>
        let pos : Int × Int :=
          if !opts.Replicate then
            D.calcPosition width frameHeight (E.wmWidth tr) (E.wmHeight tr)
              opts.Gravity offsetScale true
          else (0, 0)
        frameLoop E pos.1 opacity frameHeight framesCount.toNat pos.2 tr

/-- The function `applyWatermark`: the body, then the deferred `wm.Clear()`,
which runs on every exit. -/
def applyWatermark {ε : Type} (E : Engine ε) (D : Deps) (img : HostImage)
    (wmData : ImageData) (opts : WatermarkOptions) (offsetScale : ℚ)
    (framesCount : Int) : Exec ε Unit :=
  fun tr =>
    let r := applyWatermarkBody E D img wmData opts offsetScale framesCount tr
    (r.1, r.2 ++ [Op.clear])

/-! ## watermark -/

/-- The function `watermark`; `Watermark` is the package variable
`imagedata.Watermark` (absent when no watermark is configured) and `dprScale`
the field of the pipeline context. -/
def watermark {ε : Type} (E : Engine ε) (D : Deps) (Watermark : Option ImageData)
    (dprScale : ℚ) (img : HostImage) (poWatermark : WatermarkOptions) : Exec ε Unit :=
  if !poWatermark.Enabled || Watermark.isNone then Exec.ret ()
  else
    match Watermark with
    | some wmData => applyWatermark E D img wmData poWatermark dprScale 1
    | none => Exec.ret ()

/-! ## Vocabulary of the statements -/

/-- Run a list of engine calls in order, stopping at the first failure. -/
def callAll {ε : Type} (E : Engine ε) : List Op → Exec ε Unit
  | [] => Exec.ret ()
  | op :: rest => (call E op).andThen fun _ => callAll E rest

/-- The calls `prepareWatermark` makes when none of them fails. -/
def prepareOps (D : Deps) (wmData : ImageData) (opts : WatermarkOptions)
    (imgWidth imgHeight : Int) (offsetScale : ℚ) (framesCount : Int) : List Op :=
  [Op.load wmData 1 1 1]
    ++ watermarkPipeline.map
        (fun s => Op.stage s (watermarkPO D wmData opts imgWidth imgHeight offsetScale) wmData)
    ++ (if opts.Replicate || decide (framesCount > 1) then [Op.copyMemory] else [])
    ++ (if opts.Replicate then [Op.replicate imgWidth imgHeight] else [])
    ++ [Op.stripAll]

/-- The calls that normalise the host image before blending. -/
def hostOps (img : HostImage) : List Op :=
  (if !img.ColourProfileImported then [Op.importColourProfile] else [])
    ++ [Op.rgbColourspace]

/-- The blends of the frame loop: `n` of them, starting at `top`. -/
def blendOps (left : Int) (opacity : ℚ) (frameHeight : Int) (n : Nat) (top : Int) :
    List Op :=
  (List.range n).map fun (k : Nat) => Op.applyWatermark left (top + (k : Int) * frameHeight) opacity

/-- The position of the first blend of the frame loop, read once the calls
`tr` have been made. -/
def placement {ε : Type} (E : Engine ε) (D : Deps) (img : HostImage)
    (opts : WatermarkOptions) (offsetScale : ℚ) (framesCount : Int) (tr : List Op) :
    Int × Int :=
  if !opts.Replicate then
    D.calcPosition img.Width (Int.tdiv img.Height framesCount) (E.wmWidth tr) (E.wmHeight tr)
      opts.Gravity offsetScale true
  else (0, 0)

/-- The calls before the blending part of `applyWatermark`. -/
def setupOps (D : Deps) (img : HostImage) (wmData : ImageData) (opts : WatermarkOptions)
    (offsetScale : ℚ) (framesCount : Int) : List Op :=
  prepareOps D wmData opts img.Width (Int.tdiv img.Height framesCount) offsetScale framesCount
    ++ hostOps img

/-- The calls of the blending part of `applyWatermark`: the fast path, or the
frame loop. -/
def blendPhaseOps {ε : Type} (E : Engine ε) (D : Deps) (img : HostImage) (wmData : ImageData)
    (opts : WatermarkOptions) (offsetScale : ℚ) (framesCount : Int) : List Op :=
  if opts.Replicate && decide (framesCount > 1) then
    [Op.replicate img.Width img.Height,
     Op.applyWatermark 0 0 (D.mulFloat64 opts.Opacity D.WatermarkOpacity)]
  else
    blendOps
      (placement E D img opts offsetScale framesCount
        (setupOps D img wmData opts offsetScale framesCount)).1
      (D.mulFloat64 opts.Opacity D.WatermarkOpacity) (Int.tdiv img.Height framesCount)
      framesCount.toNat
      (placement E D img opts offsetScale framesCount
        (setupOps D img wmData opts offsetScale framesCount)).2

/-- The calls the body of `applyWatermark` makes when none of them fails. -/
def applyOps {ε : Type} (E : Engine ε) (D : Deps) (img : HostImage) (wmData : ImageData)
    (opts : WatermarkOptions) (offsetScale : ℚ) (framesCount : Int) : List Op :=
  setupOps D img wmData opts offsetScale framesCount
    ++ blendPhaseOps E D img wmData opts offsetScale framesCount

/-- The load and the stages of the transform pipeline. -/
def transformOps (D : Deps) (img : HostImage) (wmData : ImageData) (opts : WatermarkOptions)
    (offsetScale : ℚ) (framesCount : Int) : List Op :=
  Op.load wmData 1 1 1
    :: watermarkPipeline.map (fun s =>
        Op.stage s
          (watermarkPO D wmData opts img.Width (Int.tdiv img.Height framesCount) offsetScale)
          wmData)

/-- The calls that follow the decision to copy the watermark to memory. -/
def afterCopyOps {ε : Type} (E : Engine ε) (D : Deps) (img : HostImage) (wmData : ImageData)
    (opts : WatermarkOptions) (offsetScale : ℚ) (framesCount : Int) : List Op :=
  (if opts.Replicate then [Op.replicate img.Width (Int.tdiv img.Height framesCount)] else [])
    ++ [Op.stripAll]
    ++ hostOps img
    ++ blendPhaseOps E D img wmData opts offsetScale framesCount

/-- A blend of the watermark into the host image. -/
def Op.isBlend : Op → Bool
  | .applyWatermark _ _ _ => true
  | _ => false

/-- A tiling of the watermark image. -/
def Op.isReplicate : Op → Bool
  | .replicate _ _ => true
  | _ => false

/-- A stage of the transform pipeline. -/
def Op.isStage : Op → Bool
  | .stage _ _ _ => true
  | _ => false

/-- A call that acts on the host image. -/
def Op.touchesHost : Op → Bool
  | .importColourProfile => true
  | .rgbColourspace => true
  | .applyWatermark _ _ _ => true
  | _ => false

/-- An engine in which no call fails and the watermark is `w` by `h`. -/
def okEngine (w h : Int) : Engine Nat where
  fail := fun _ _ => none
  wmWidth := fun _ => w
  wmHeight := fun _ => h

/-- An engine in which exactly the calls equal to `bad` fail, with error `e`. -/
def failingEngine (bad : Op) (e : Nat) : Engine Nat where
  fail := fun _ op => if op = bad then some e else none
  wmWidth := fun _ => 10
  wmHeight := fun _ => 10

/-- Sample dependencies: empty default options, a placement in the top left
corner shifted by the gravity offsets, full opacity, and a multiplication that
is the `float64` one wherever the product of the operands is a `float64`, as
it is at every sample input below. -/
def sampleDeps : Deps where
  NewProcessingOptions :=
    { ResizingType := .ResizeFit, Width := 0, Height := 0, Dpr := 1, Enlarge := false,
      Format := 0, Padding := { Enabled := false, Top := 0, Right := 0, Bottom := 0, Left := 0 } }
  calcPosition := fun _ _ _ _ g _ _ => (⌊g.X⌋, ⌊g.Y⌋)
  WatermarkOpacity := 1
  mulFloat64 := fun a b => a * b

/-- Sample watermark source. -/
def sampleData : ImageData := { ImgType := 1, Data := [137, 80, 78, 71] }

/-- Sample options: enabled, opaque, native size, given tiling flag and offsets. -/
def sampleOpts (replicate : Bool) (x y : ℚ) : WatermarkOptions :=
  { Enabled := true, Opacity := 1, Replicate := replicate,
    Gravity := { GravityType := 0, X := x, Y := y }, Scale := 0 }

/-- Sample options with an explicit scale and no tiling. -/
def scaledOpts (scale : ℚ) : WatermarkOptions :=
  { Enabled := true, Opacity := 1, Replicate := false,
    Gravity := { GravityType := 0, X := 0, Y := 0 }, Scale := scale }

/-- The integer `r` is an even integer nearest to `a`. -/
def IsNearestEven (r : Int) (a : ℚ) : Prop :=
  r % 2 = 0 ∧ ∀ m : Int, |(r : ℚ) - a| ≤ |((2 * m : Int) : ℚ) - a|

/-! ## Straight-line runs -/

theorem andThen_assoc {ε α β γ : Type} (m : Exec ε α) (f : α → Exec ε β)
    (g : β → Exec ε γ) :
    (m.andThen f).andThen g = m.andThen fun a => (f a).andThen g := by
  funext tr
  simp only [Exec.andThen]
  rcases m tr with ⟨r, tr1⟩
  cases r <;> rfl

theorem ret_andThen {ε α β : Type} (a : α) (f : α → Exec ε β) :
    (Exec.ret a : Exec ε α).andThen f = f a := by
  funext tr
  rfl

theorem callAll_nil {ε : Type} (E : Engine ε) : callAll E [] = Exec.ret () := rfl

theorem callAll_single {ε : Type} (E : Engine ε) (op : Op) : callAll E [op] = call E op := by
  funext tr
  simp only [callAll, Exec.andThen, Exec.ret, call]
  cases E.fail tr op <;> rfl

theorem callAll_append {ε : Type} (E : Engine ε) (a b : List Op) :
    callAll E (a ++ b) = (callAll E a).andThen fun _ => callAll E b := by
  induction a with
  | nil => simp [callAll, ret_andThen]
  | cons op rest ih => simp [callAll, andThen_assoc, ih]

theorem pipelineRun_eq {ε : Type} (E : Engine ε) (po : ProcessingOptions) (d : ImageData)
    (l : List Stage) :
    pipelineRun E po d l = callAll E (l.map fun s => Op.stage s po d) := by
  induction l with
  | nil => rfl
  | cons s rest ih => simp [pipelineRun, callAll, ih]

theorem blendOps_succ (left : Int) (opacity : ℚ) (frameHeight : Int) (n : Nat) (top : Int) :
    blendOps left opacity frameHeight (n + 1) top
      = Op.applyWatermark left top opacity
          :: blendOps left opacity frameHeight n (top + frameHeight) := by
  simp only [blendOps, List.range_succ_eq_map, List.map_cons, List.map_map]
  congr 1
  · simp
  · apply List.map_congr_left
    intro k _
    simp only [Function.comp, Nat.succ_eq_add_one, Nat.cast_add, Nat.cast_one]
    congr 1
    ring

theorem frameLoop_eq {ε : Type} (E : Engine ε) (left : Int) (opacity : ℚ)
    (frameHeight : Int) (n : Nat) (top : Int) :
    frameLoop E left opacity frameHeight n top
      = callAll E (blendOps left opacity frameHeight n top) := by
  induction n generalizing top with
  | zero => rfl
  | succ n ih => simp [frameLoop, blendOps_succ, callAll, ih]

theorem callAll_ok_trace {ε : Type} (E : Engine ε) (ops tr : List Op)
    (h : (callAll E ops tr).1 = .ok ()) : (callAll E ops tr).2 = tr ++ ops := by
  induction ops generalizing tr with
  | nil => simp [callAll, Exec.ret]
  | cons op rest ih =>
    simp only [callAll, Exec.andThen, call] at h ⊢
    cases hf : E.fail tr op with
    | none =>
      simp only [hf] at h ⊢
      simpa using ih (tr ++ [op]) h
    | some e => simp [hf] at h

theorem callAll_all_ok {ε : Type} (E : Engine ε) (hok : ∀ tr op, E.fail tr op = none)
    (ops tr : List Op) : callAll E ops tr = (.ok (), tr ++ ops) := by
  induction ops generalizing tr with
  | nil => simp [callAll, Exec.ret]
  | cons op rest ih => simp [callAll, Exec.andThen, call, hok, ih]

theorem callAll_prefix {ε : Type} (E : Engine ε) (ops tr : List Op) :
    ∃ p, p <+: ops ∧ (callAll E ops tr).2 = tr ++ p := by
  induction ops generalizing tr with
  | nil => exact ⟨[], List.prefix_refl _, by simp [callAll, Exec.ret]⟩
  | cons op rest ih =>
    simp only [callAll, Exec.andThen, call]
    cases hf : E.fail tr op with
    | none =>
      obtain ⟨p, hp, hq⟩ := ih (tr ++ [op])
      refine ⟨op :: p, ?_, ?_⟩
      · exact (List.prefix_cons_inj op).2 hp
      · simpa using hq
    | some e =>
      refine ⟨[op], ?_, rfl⟩
      exact (List.prefix_cons_inj op).2 (List.nil_prefix)

/-- Fail-fast for a straight-line run: a call that fails is the last one made
and its error is the result. -/
theorem callAll_failfast {ε : Type} (E : Engine ε) (ops tr : List Op) (j : Nat) (op : Op)
    (e : ε) (hj : tr.length ≤ j) (hget : (callAll E ops tr).2[j]? = some op)
    (hfail : E.fail ((callAll E ops tr).2.take j) op = some e) :
    j + 1 = (callAll E ops tr).2.length
      ∧ (callAll E ops tr).1 = .error (.engine e) := by
  induction ops generalizing tr with
  | nil =>
    simp only [callAll, Exec.ret] at hget
    rw [List.getElem?_eq_none hj] at hget
    cases hget
  | cons o rest ih =>
    simp only [callAll, Exec.andThen, call] at hget hfail ⊢
    cases hf : E.fail tr o with
    | none =>
      simp only [hf] at hget hfail ⊢
      rcases Nat.eq_or_lt_of_le hj with h0 | h1
      · obtain ⟨p, _, hq⟩ := callAll_prefix E rest (tr ++ [o])
        rw [hq] at hget hfail
        subst h0
        simp only [List.append_assoc, List.singleton_append, List.getElem?_append_right (le_refl _),
          Nat.sub_self, List.getElem?_cons_zero, Option.some.injEq] at hget
        subst hget
        rw [List.append_assoc, List.take_left] at hfail
        rw [hf] at hfail
        cases hfail
      · exact ih (tr ++ [o]) (by simpa using h1) hget hfail
    | some e1 =>
      simp only [hf] at hget hfail ⊢
      have hlt : j < (tr ++ [o]).length := by
        by_contra hc
        rw [List.getElem?_eq_none (Nat.le_of_not_lt hc)] at hget
        cases hget
      have h0 : j = tr.length := by
        simp at hlt
        omega
      subst h0
      simp only [List.getElem?_append_right (le_refl _), Nat.sub_self, List.getElem?_cons_zero,
        Option.some.injEq] at hget
      subst hget
      rw [List.take_left] at hfail
      rw [hf] at hfail
      cases hfail
      simp

/-! ## The two functions as straight-line runs -/

theorem prepareWatermark_eq {ε : Type} (E : Engine ε) (D : Deps) (wmData : ImageData)
    (opts : WatermarkOptions) (imgWidth imgHeight : Int) (offsetScale : ℚ)
    (framesCount : Int) :
    prepareWatermark E D wmData opts imgWidth imgHeight offsetScale framesCount
      = callAll E (prepareOps D wmData opts imgWidth imgHeight offsetScale framesCount) := by
  have h1 : (if (opts.Replicate || decide (framesCount > 1)) = true then call E Op.copyMemory
        else (Exec.ret () : Exec ε Unit))
      = callAll E (if (opts.Replicate || decide (framesCount > 1)) = true then [Op.copyMemory]
          else []) := by
    split <;> simp [callAll_single, callAll_nil]
  have h2 : (if opts.Replicate = true then call E (Op.replicate imgWidth imgHeight)
        else (Exec.ret () : Exec ε Unit))
      = callAll E (if opts.Replicate = true then [Op.replicate imgWidth imgHeight]
          else []) := by
    split <;> simp [callAll_single, callAll_nil]
  simp only [prepareWatermark, prepareOps, callAll_append, andThen_assoc, pipelineRun_eq,
    h1, h2, callAll_single]

theorem applyWatermarkBody_eq {ε : Type} (E : Engine ε) (D : Deps) (img : HostImage)
    (wmData : ImageData) (opts : WatermarkOptions) (offsetScale : ℚ) (framesCount : Int)
    (hN : framesCount ≠ 0) :
    applyWatermarkBody E D img wmData opts offsetScale framesCount []
      = callAll E (applyOps E D img wmData opts offsetScale framesCount) [] := by
  have h1 : (if (!img.ColourProfileImported) = true then call E Op.importColourProfile
        else (Exec.ret () : Exec ε Unit))
      = callAll E (if (!img.ColourProfileImported) = true then [Op.importColourProfile]
          else []) := by
    split <;> simp [callAll_single, callAll_nil]
  have hsetup : ((prepareWatermark E D wmData opts img.Width (Int.tdiv img.Height framesCount)
        offsetScale framesCount).andThen fun _ =>
        (if (!img.ColourProfileImported) = true then call E Op.importColourProfile
          else (Exec.ret () : Exec ε Unit)).andThen fun _ => call E Op.rgbColourspace)
      = callAll E (setupOps D img wmData opts offsetScale framesCount) := by
    simp only [setupOps, hostOps, callAll_append, prepareWatermark_eq, h1, callAll_single]
  simp only [applyWatermarkBody, if_neg hN, applyOps, blendPhaseOps]
  rw [← andThen_assoc, ← andThen_assoc, andThen_assoc (prepareWatermark _ _ _ _ _ _ _ _), hsetup,
    callAll_append]
  simp only [Exec.andThen]
  cases hr : callAll E (setupOps D img wmData opts offsetScale framesCount) [] with
  | mk r tr1 =>
    cases r with
    | error f => rfl
    | ok u =>
      have htr : tr1 = setupOps D img wmData opts offsetScale framesCount := by
        have := callAll_ok_trace E (setupOps D img wmData opts offsetScale framesCount) []
          (by rw [hr])
        rw [hr] at this
        simpa using this
      subst htr
      simp only []
      split
      · simp only [callAll, Exec.andThen, call, Exec.ret]
        cases E.fail _ _ <;> simp
        cases E.fail _ _ <;> simp
      · simp only [frameLoop_eq, placement]

/-! ## Rounding -/

theorem RoundToEven_even (a : ℚ) : RoundToEven a % 2 = 0 := by
  unfold RoundToEven
  omega

/-- The value of `RoundToEven` is even and no even integer is nearer. -/
theorem RoundToEven_nearest (a : ℚ) : IsNearestEven (RoundToEven a) a := by
  refine ⟨RoundToEven_even a, ?_⟩
  intro m
  have h1 : ((⌊(a + 1) / 2⌋ : Int) : ℚ) ≤ (a + 1) / 2 := Int.floor_le _
  have h2 : (a + 1) / 2 < ((⌊(a + 1) / 2⌋ : Int) : ℚ) + 1 := Int.lt_floor_add_one _
  have hr : ((RoundToEven a : Int) : ℚ) = 2 * ((⌊(a + 1) / 2⌋ : Int) : ℚ) := by
    simp [RoundToEven]
  rw [hr]
  have hle : |2 * ((⌊(a + 1) / 2⌋ : Int) : ℚ) - a| ≤ 1 := by
    rw [abs_le]
    constructor <;> linarith
  push_cast
  rcases lt_trichotomy m ⌊(a + 1) / 2⌋ with hlt | heq | hgt
  · have hm : (m : ℚ) + 1 ≤ ((⌊(a + 1) / 2⌋ : Int) : ℚ) := by exact_mod_cast hlt
    have h3 : 1 ≤ |2 * (m : ℚ) - a| := by
      rw [le_abs]
      right
      linarith
    linarith
  · rw [heq]
  · have hm : ((⌊(a + 1) / 2⌋ : Int) : ℚ) + 1 ≤ (m : ℚ) := by exact_mod_cast hgt
    have h3 : 1 ≤ |2 * (m : ℚ) - a| := by
      rw [le_abs]
      left
      linarith
    linarith

theorem Max_eq_max (a b : Int) : Max a b = max a b := by
  unfold Max
  split
  · exact (max_eq_left (by omega)).symm
  · exact (max_eq_right (by omega)).symm

/-! ## Claims on the geometry of the preparation -/

/-- C4: with `Replicate` set, the offset on the X axis is `round-even(x * width)`
when `|x| < 1`, and when `|x| ≥ 1` it is `round-even` of the `float64` product
`x * offsetScale`, whatever the target size; the Y axis follows the same rule
against the height.  In each case the offset is an even integer nearest to
the product. -/
theorem replicateOffsets_rule (D : Deps) (opts : WatermarkOptions) (imgWidth imgHeight : Int)
    (offsetScale : ℚ) :
    (|opts.Gravity.X| < 1 →
        (replicateOffsets D opts imgWidth imgHeight offsetScale).1
          = RoundToEven (opts.Gravity.X * imgWidth)
        ∧ IsNearestEven (replicateOffsets D opts imgWidth imgHeight offsetScale).1
            (opts.Gravity.X * imgWidth))
    ∧ (|opts.Gravity.X| ≥ 1 → ∀ w h : Int,
        (replicateOffsets D opts w h offsetScale).1
          = RoundToEven (D.mulFloat64 opts.Gravity.X offsetScale)
        ∧ IsNearestEven (replicateOffsets D opts w h offsetScale).1
            (D.mulFloat64 opts.Gravity.X offsetScale))
    ∧ (|opts.Gravity.Y| < 1 →
        (replicateOffsets D opts imgWidth imgHeight offsetScale).2
          = RoundToEven (opts.Gravity.Y * imgHeight)
        ∧ IsNearestEven (replicateOffsets D opts imgWidth imgHeight offsetScale).2
            (opts.Gravity.Y * imgHeight))
    ∧ (|opts.Gravity.Y| ≥ 1 → ∀ w h : Int,
        (replicateOffsets D opts w h offsetScale).2
          = RoundToEven (D.mulFloat64 opts.Gravity.Y offsetScale)
        ∧ IsNearestEven (replicateOffsets D opts w h offsetScale).2
            (D.mulFloat64 opts.Gravity.Y offsetScale)) := by
  refine ⟨?_, ?_, ?_, ?_⟩
  · intro h
    have e : (replicateOffsets D opts imgWidth imgHeight offsetScale).1
        = RoundToEven (opts.Gravity.X * imgWidth) := by
      simp only [replicateOffsets, if_neg (not_le.2 h), ScaleToEven, mul_comm]
    rw [e]
    exact ⟨rfl, RoundToEven_nearest _⟩
  · intro h w ht
    have e : (replicateOffsets D opts w ht offsetScale).1
        = RoundToEven (D.mulFloat64 opts.Gravity.X offsetScale) := by
      simp only [replicateOffsets, if_pos h]
    rw [e]
    exact ⟨rfl, RoundToEven_nearest _⟩
  · intro h
    have e : (replicateOffsets D opts imgWidth imgHeight offsetScale).2
        = RoundToEven (opts.Gravity.Y * imgHeight) := by
      simp only [replicateOffsets, if_neg (not_le.2 h), ScaleToEven, mul_comm]
    rw [e]
    exact ⟨rfl, RoundToEven_nearest _⟩
  · intro h w ht
    have e : (replicateOffsets D opts w ht offsetScale).2
        = RoundToEven (D.mulFloat64 opts.Gravity.Y offsetScale) := by
      simp only [replicateOffsets, if_pos h]
    rw [e]
    exact ⟨rfl, RoundToEven_nearest _⟩

/-- Scenario of C4: `x = 10` with `offsetScale = 2` resolves to 20 for any
target size, and `y = 1/4` against a height of 10 resolves to 2. -/
theorem replicateOffsets_rule_witness :
    (∀ w h : Int, (replicateOffsets sampleDeps (sampleOpts true 10 (1 / 4)) w h 2).1 = 20)
    ∧ (replicateOffsets sampleDeps (sampleOpts true 10 (1 / 4)) 640 10 2).2 = 2 := by
  constructor
  · intro w h
    rw [((replicateOffsets_rule sampleDeps (sampleOpts true 10 (1 / 4)) 0 0 2).2.1
      (by norm_num [sampleOpts]) w h).1]
    norm_num [sampleOpts, sampleDeps, RoundToEven, Int.floor_eq_iff]
  · rw [((replicateOffsets_rule sampleDeps (sampleOpts true 10 (1 / 4)) 640 10 2).2.2.1
      (by norm_num [sampleOpts, abs_lt])).1]
    norm_num [sampleOpts, RoundToEven, Int.floor_eq_iff]

/-- C5: with `Replicate` set, the padding of each axis splits the resolved
offset: `Left` is the offset divided by two, truncating toward zero, `Left +
Right` is the offset, and likewise `Top` and `Bottom` for the Y offset.  The
padding is `replicatePadding` of the two offsets, and that split holds for
every pair of integers, of either sign and parity. -/
theorem padding_split (D : Deps) (wmData : ImageData) (opts : WatermarkOptions)
    (imgWidth imgHeight : Int) (offsetScale : ℚ) (hrep : opts.Replicate = true) :
    let po := watermarkPO D wmData opts imgWidth imgHeight offsetScale
    let off := replicateOffsets D opts imgWidth imgHeight offsetScale
    po.Padding.Enabled = true
      ∧ po.Padding.Left = Int.tdiv off.1 2
      ∧ po.Padding.Left + po.Padding.Right = off.1
      ∧ po.Padding.Top = Int.tdiv off.2 2
      ∧ po.Padding.Top + po.Padding.Bottom = off.2
      ∧ po.Padding = replicatePadding off.1 off.2
      ∧ ∀ offX offY : Int,
          (replicatePadding offX offY).Left = Int.tdiv offX 2
          ∧ (replicatePadding offX offY).Left + (replicatePadding offX offY).Right = offX
          ∧ (replicatePadding offX offY).Top = Int.tdiv offY 2
          ∧ (replicatePadding offX offY).Top + (replicatePadding offX offY).Bottom = offY := by
  intro po off
  have hpo : po.Padding = replicatePadding off.1 off.2 := by
    simp only [po, off, watermarkPO, hrep, if_true]
  rw [hpo]
  refine ⟨rfl, rfl, ?_, rfl, ?_, rfl, ?_⟩
  · simp [replicatePadding]
  · simp [replicatePadding]
  · intro offX offY
    refine ⟨rfl, ?_, rfl, ?_⟩ <;> simp [replicatePadding]

/-- Instance of C5: the gravity offsets -6 and 10 at `offsetScale = 1` give
the padding pairs (-3, -3) and (5, 5); the odd offsets -7 and 5 split into
(-3, -4) and (2, 3). -/
theorem padding_split_witness :
    (watermarkPO sampleDeps sampleData (sampleOpts true (-6) 10) 640 480 1).Padding
        = { Enabled := true, Top := 5, Right := -3, Bottom := 5, Left := -3 }
    ∧ replicatePadding (-7) 5
        = { Enabled := true, Top := 2, Right := -4, Bottom := 3, Left := -3 } := by
  have h := padding_split sampleDeps sampleData (sampleOpts true (-6) 10) 640 480 1 rfl
  have hoff : replicateOffsets sampleDeps (sampleOpts true (-6) 10) 640 480 1 = (-6, 10) := by
    have e1 : RoundToEven (sampleDeps.mulFloat64 (-6) 1) = -6 := by
      norm_num [sampleDeps, RoundToEven, Int.floor_eq_iff]
    have e2 : RoundToEven (sampleDeps.mulFloat64 10 1) = 10 := by
      norm_num [sampleDeps, RoundToEven, Int.floor_eq_iff]
    have a1 : |(-6 : ℚ)| ≥ 1 := by norm_num
    have a2 : |(10 : ℚ)| ≥ 1 := by norm_num
    simp only [replicateOffsets, sampleOpts, if_pos a1, if_pos a2, e1, e2]
  simp only [hoff] at h
  have h7 := h.2.2.2.2.2.2 (-7) 5
  constructor
  · rw [h.2.2.2.2.2.1]
    decide
  · have e2 : Int.tdiv (-7) 2 = -3 := by decide
    have e4 : Int.tdiv 5 2 = 2 := by decide
    obtain ⟨k1, k2, k3, k4⟩ := h7
    rw [e2] at k1
    rw [e4] at k3
    rw [k1] at k2
    rw [k3] at k4
    cases hp : replicatePadding (-7) 5 with
    | mk en t r b l =>
      rw [hp] at k1 k2 k3 k4
      simp only at k1 k2 k3 k4
      have hen : en = true := by
        have := congrArg PaddingOptions.Enabled hp
        simpa [replicatePadding] using this.symm
      have hr : r = -4 := by omega
      have hb : b = 3 := by omega
      subst hen k1 k3 hr hb
      rfl

/-- Every pipeline stage that `prepareWatermark` runs receives the options
built by `watermarkPO`. -/
theorem stage_options {ε : Type} (E : Engine ε) (D : Deps) (wmData : ImageData)
    (opts : WatermarkOptions) (imgWidth imgHeight : Int) (offsetScale : ℚ) (framesCount : Int)
    (st : Stage) (po : ProcessingOptions) (d : ImageData)
    (h : Op.stage st po d
      ∈ (prepareWatermark E D wmData opts imgWidth imgHeight offsetScale framesCount []).2) :
    po = watermarkPO D wmData opts imgWidth imgHeight offsetScale := by
  rw [prepareWatermark_eq] at h
  obtain ⟨p, hp, hq⟩ := callAll_prefix E
    (prepareOps D wmData opts imgWidth imgHeight offsetScale framesCount) []
  rw [hq, List.nil_append] at h
  have hmem := hp.subset h
  simp only [prepareOps, watermarkPipeline, List.map_cons, List.map_nil, List.mem_append,
    List.mem_cons, List.mem_singleton, List.not_mem_nil, or_false, Op.stage.injEq] at hmem
  rcases hmem with ((((h1 | h1) | h1) | h1) | h1)
  · cases h1
  · rcases h1 with h1 | h1 | h1 | h1 | h1 | h1 <;> exact h1.2.1
  · split at h1 <;> simp at h1
  · split at h1 <;> simp at h1
  · cases h1

/-- C6: for `Scale = s > 0` the target width and height, which every stage of
the transform pipeline receives, are `max(round-even(dim * s), 1)`, with
`round-even(dim * s)` an even integer nearest to `dim * s`; each of them is
even, or is 1 because the rounded value was below 1. -/
theorem scaled_target {ε : Type} (E : Engine ε) (D : Deps) (wmData : ImageData)
    (opts : WatermarkOptions) (imgWidth imgHeight : Int) (offsetScale : ℚ) (framesCount : Int)
    (hs : opts.Scale > 0) :
    (watermarkPO D wmData opts imgWidth imgHeight offsetScale).Width
        = max (RoundToEven ((imgWidth : ℚ) * opts.Scale)) 1
    ∧ (watermarkPO D wmData opts imgWidth imgHeight offsetScale).Height
        = max (RoundToEven ((imgHeight : ℚ) * opts.Scale)) 1
    ∧ IsNearestEven (RoundToEven ((imgWidth : ℚ) * opts.Scale)) ((imgWidth : ℚ) * opts.Scale)
    ∧ IsNearestEven (RoundToEven ((imgHeight : ℚ) * opts.Scale)) ((imgHeight : ℚ) * opts.Scale)
    ∧ (∀ (st : Stage) (po : ProcessingOptions) (d : ImageData),
        Op.stage st po d
            ∈ (prepareWatermark E D wmData opts imgWidth imgHeight offsetScale framesCount []).2 →
          po.Width = max (RoundToEven ((imgWidth : ℚ) * opts.Scale)) 1
            ∧ po.Height = max (RoundToEven ((imgHeight : ℚ) * opts.Scale)) 1)
    ∧ ((watermarkPO D wmData opts imgWidth imgHeight offsetScale).Width % 2 = 0
        ∨ ((watermarkPO D wmData opts imgWidth imgHeight offsetScale).Width = 1
            ∧ RoundToEven ((imgWidth : ℚ) * opts.Scale) < 1))
    ∧ ((watermarkPO D wmData opts imgWidth imgHeight offsetScale).Height % 2 = 0
        ∨ ((watermarkPO D wmData opts imgWidth imgHeight offsetScale).Height = 1
            ∧ RoundToEven ((imgHeight : ℚ) * opts.Scale) < 1)) := by
  have hw : (watermarkPO D wmData opts imgWidth imgHeight offsetScale).Width
      = max (RoundToEven ((imgWidth : ℚ) * opts.Scale)) 1 := by
    simp only [watermarkPO, if_pos hs, ScaleToEven, Max_eq_max]
    split <;> rfl
  have hh : (watermarkPO D wmData opts imgWidth imgHeight offsetScale).Height
      = max (RoundToEven ((imgHeight : ℚ) * opts.Scale)) 1 := by
    simp only [watermarkPO, if_pos hs, ScaleToEven, Max_eq_max]
    split <;> rfl
  refine ⟨hw, hh, RoundToEven_nearest _, RoundToEven_nearest _, ?_, ?_, ?_⟩
  · intro st po d hmem
    rw [stage_options E D wmData opts imgWidth imgHeight offsetScale framesCount st po d hmem]
    exact ⟨hw, hh⟩
  · have hev := RoundToEven_even ((imgWidth : ℚ) * opts.Scale)
    rw [hw]
    rcases lt_or_le (RoundToEven ((imgWidth : ℚ) * opts.Scale)) 1 with h | h
    · right
      exact ⟨max_eq_right (le_of_lt h), h⟩
    · left
      rw [max_eq_left h]
      exact hev
  · have hev := RoundToEven_even ((imgHeight : ℚ) * opts.Scale)
    rw [hh]
    rcases lt_or_le (RoundToEven ((imgHeight : ℚ) * opts.Scale)) 1 with h | h
    · right
      exact ⟨max_eq_right (le_of_lt h), h⟩
    · left
      rw [max_eq_left h]
      exact hev

/-- Instances of C6: a 5 by 7 frame at scale 1/2 gives the target 2 by 4; a 3
by 3 frame at scale 1 gives 4 by 4; a 1 by 1 frame at scale 1/4 gives 1 by 1. -/
theorem scaled_target_witness :
    ((watermarkPO sampleDeps sampleData (scaledOpts (1 / 2)) 5 7 1).Width = 2
      ∧ (watermarkPO sampleDeps sampleData (scaledOpts (1 / 2)) 5 7 1).Height = 4)
    ∧ (watermarkPO sampleDeps sampleData (scaledOpts 1) 3 3 1).Width = 4
    ∧ (watermarkPO sampleDeps sampleData (scaledOpts (1 / 4)) 1 1 1).Width = 1 := by
  have h := scaled_target (okEngine 10 10) sampleDeps sampleData (scaledOpts (1 / 2)) 5 7 1 1
    (by norm_num [scaledOpts])
  have h3 := scaled_target (okEngine 10 10) sampleDeps sampleData (scaledOpts 1) 3 3 1 1
    (by norm_num [scaledOpts])
  have h1 := scaled_target (okEngine 10 10) sampleDeps sampleData (scaledOpts (1 / 4)) 1 1 1 1
    (by norm_num [scaledOpts])
  have r1 : RoundToEven (((5 : Int) : ℚ) * (scaledOpts (1 / 2)).Scale) = 2 := by
    norm_num [scaledOpts, RoundToEven, Int.floor_eq_iff]
  have r2 : RoundToEven (((7 : Int) : ℚ) * (scaledOpts (1 / 2)).Scale) = 4 := by
    norm_num [scaledOpts, RoundToEven, Int.floor_eq_iff]
  have r3 : RoundToEven (((3 : Int) : ℚ) * (scaledOpts 1).Scale) = 4 := by
    norm_num [scaledOpts, RoundToEven, Int.floor_eq_iff]
  have r4 : RoundToEven (((1 : Int) : ℚ) * (scaledOpts (1 / 4)).Scale) = 0 := by
    norm_num [scaledOpts, RoundToEven, Int.floor_eq_iff]
  rw [r1, r2] at h
  rw [r3] at h3
  rw [r4] at h1
  exact ⟨⟨h.1, h.2.1⟩, h3.1, h1.1⟩

/-! ## The dispatcher -/

theorem dispatch_enabled_eq {ε : Type} (E : Engine ε) (D : Deps) (wmData : ImageData)
    (dprScale : ℚ) (img : HostImage) (poWatermark : WatermarkOptions) (tr : List Op)
    (hen : poWatermark.Enabled = true) :
    watermark E D (some wmData) dprScale img poWatermark tr
      = applyWatermark E D img wmData poWatermark dprScale 1 tr := by
  simp [watermark, hen]

/-- C2: `watermark` succeeds without any engine call when watermarking is
disabled or no source is configured, and otherwise is `applyWatermark` on the
configured source with the request options, `offsetScale = dprScale` and
`framesCount = 1`. -/
theorem watermark_dispatch {ε : Type} (E : Engine ε) (D : Deps) (Watermark : Option ImageData)
    (dprScale : ℚ) (img : HostImage) (poWatermark : WatermarkOptions) (tr : List Op) :
    ((poWatermark.Enabled = false ∨ Watermark = none) →
        watermark E D Watermark dprScale img poWatermark tr = (.ok (), tr))
    ∧ (∀ wmData : ImageData, poWatermark.Enabled = true → Watermark = some wmData →
        watermark E D Watermark dprScale img poWatermark tr
          = applyWatermark E D img wmData poWatermark dprScale 1 tr) := by
  constructor
  · rintro (h | h)
    · simp [watermark, h, Exec.ret]
    · subst h
      simp [watermark, Exec.ret]
  · intro wmData hen hsrc
    subst hsrc
    simp [watermark, hen]

/-- Instance of C2: a disabled request and an unconfigured source make no
call; an enabled request with a source is the one-frame `applyWatermark`. -/
theorem watermark_dispatch_witness :
    watermark (okEngine 10 10) sampleDeps (some sampleData) 2 ⟨100, 300, true⟩
        { sampleOpts false 0 0 with Enabled := false } [] = (.ok (), [])
    ∧ watermark (okEngine 10 10) sampleDeps none 2 ⟨100, 300, true⟩ (sampleOpts false 0 0) []
        = (.ok (), [])
    ∧ watermark (okEngine 10 10) sampleDeps (some sampleData) 2 ⟨100, 300, true⟩
        (sampleOpts false 0 0) []
        = applyWatermark (okEngine 10 10) sampleDeps ⟨100, 300, true⟩ sampleData
            (sampleOpts false 0 0) 2 1 [] :=
  ⟨(watermark_dispatch (okEngine 10 10) sampleDeps (some sampleData) 2 ⟨100, 300, true⟩
      { sampleOpts false 0 0 with Enabled := false } []).1 (Or.inl rfl),
   (watermark_dispatch (okEngine 10 10) sampleDeps none 2 ⟨100, 300, true⟩
      (sampleOpts false 0 0) []).1 (Or.inr rfl),
   (watermark_dispatch (okEngine 10 10) sampleDeps (some sampleData) 2 ⟨100, 300, true⟩
      (sampleOpts false 0 0) []).2 sampleData rfl rfl⟩

/-! ## Shape of the calls -/

theorem applyOps_split {ε : Type} (E : Engine ε) (D : Deps) (img : HostImage)
    (wmData : ImageData) (opts : WatermarkOptions) (offsetScale : ℚ) (framesCount : Int) :
    applyOps E D img wmData opts offsetScale framesCount
      = transformOps D img wmData opts offsetScale framesCount
          ++ ((if opts.Replicate || decide (framesCount > 1) then [Op.copyMemory] else [])
              ++ afterCopyOps E D img wmData opts offsetScale framesCount) := by
  simp only [applyOps, afterCopyOps, transformOps, setupOps, prepareOps, List.append_assoc,
    List.singleton_append, List.cons_append, List.nil_append]

theorem body_prefix {ε : Type} (E : Engine ε) (D : Deps) (img : HostImage)
    (wmData : ImageData) (opts : WatermarkOptions) (offsetScale : ℚ) (framesCount : Int) :
    (applyWatermarkBody E D img wmData opts offsetScale framesCount []).2
      <+: applyOps E D img wmData opts offsetScale framesCount := by
  by_cases hN : framesCount = 0
  · subst hN
    simp [applyWatermarkBody]
  · rw [applyWatermarkBody_eq E D img wmData opts offsetScale framesCount hN]
    obtain ⟨p, hp, hq⟩ := callAll_prefix E
      (applyOps E D img wmData opts offsetScale framesCount) []
    rw [hq, List.nil_append]
    exact hp

theorem transformOps_length (D : Deps) (img : HostImage) (wmData : ImageData)
    (opts : WatermarkOptions) (offsetScale : ℚ) (framesCount : Int) :
    (transformOps D img wmData opts offsetScale framesCount).length = 7 := by
  simp [transformOps, watermarkPipeline]

theorem transformOps_mem (D : Deps) (img : HostImage) (wmData : ImageData)
    (opts : WatermarkOptions) (offsetScale : ℚ) (framesCount : Int) (op : Op)
    (h : op ∈ transformOps D img wmData opts offsetScale framesCount) :
    op.isReplicate = false ∧ op.isBlend = false ∧ op ≠ Op.copyMemory := by
  simp only [transformOps, watermarkPipeline, List.map_cons, List.map_nil, List.mem_cons,
    List.mem_singleton, List.not_mem_nil, or_false] at h
  rcases h with h | h | h | h | h | h | h <;> subst h <;>
    exact ⟨rfl, rfl, fun hc => Op.noConfusion hc⟩

theorem blendOps_mem (left : Int) (opacity : ℚ) (frameHeight : Int) (n : Nat) (top : Int)
    (op : Op) (h : op ∈ blendOps left opacity frameHeight n top) :
    op.isBlend = true ∧ op.isReplicate = false ∧ op.isStage = false ∧ op ≠ Op.copyMemory := by
  simp only [blendOps, List.mem_map] at h
  obtain ⟨k, _, hk⟩ := h
  subst hk
  exact ⟨rfl, rfl, rfl, fun hc => Op.noConfusion hc⟩

theorem afterCopyOps_mem {ε : Type} (E : Engine ε) (D : Deps) (img : HostImage)
    (wmData : ImageData) (opts : WatermarkOptions) (offsetScale : ℚ) (framesCount : Int)
    (op : Op) (h : op ∈ afterCopyOps E D img wmData opts offsetScale framesCount) :
    op.isStage = false ∧ op ≠ Op.copyMemory := by
  simp only [afterCopyOps, blendPhaseOps, hostOps, List.mem_append, List.mem_singleton] at h
  rcases h with (((h | h) | (h | h)) | h)
  · split at h
    · simp only [List.mem_singleton] at h
      subst h
      exact ⟨rfl, fun hc => Op.noConfusion hc⟩
    · simp at h
  · subst h
    exact ⟨rfl, fun hc => Op.noConfusion hc⟩
  · split at h
    · simp only [List.mem_singleton] at h
      subst h
      exact ⟨rfl, fun hc => Op.noConfusion hc⟩
    · simp at h
  · subst h
    exact ⟨rfl, fun hc => Op.noConfusion hc⟩
  · split at h
    · simp only [List.mem_cons, List.mem_singleton, List.not_mem_nil, or_false] at h
      rcases h with h | h <;> subst h <;> exact ⟨rfl, fun hc => Op.noConfusion hc⟩
    · exact ⟨(blendOps_mem _ _ _ _ _ op h).2.2.1, (blendOps_mem _ _ _ _ _ op h).2.2.2⟩

theorem blendOps_counts (left : Int) (opacity : ℚ) (frameHeight : Int) (n : Nat) (top : Int) :
    (blendOps left opacity frameHeight n top).countP Op.isBlend = n
    ∧ (blendOps left opacity frameHeight n top).countP Op.isReplicate = 0 := by
  constructor
  · have hlen : (blendOps left opacity frameHeight n top).length = n := by simp [blendOps]
    rw [List.countP_eq_length.2 (fun op h => (blendOps_mem _ _ _ _ _ op h).1), hlen]
  · rw [List.countP_eq_zero]
    intro op h
    simp [(blendOps_mem _ _ _ _ _ op h).2.1]

theorem hostOps_counts (img : HostImage) :
    (hostOps img).countP Op.isBlend = 0 ∧ (hostOps img).countP Op.isReplicate = 0 := by
  simp only [hostOps]
  split <;> simp [List.countP_cons, Op.isBlend, Op.isReplicate]

/-- Counts of tilings and blends among the calls after the copy decision. -/
theorem afterCopyOps_counts {ε : Type} (E : Engine ε) (D : Deps) (img : HostImage)
    (wmData : ImageData) (opts : WatermarkOptions) (offsetScale : ℚ) (framesCount : Int) :
    (opts.Replicate = false →
        (afterCopyOps E D img wmData opts offsetScale framesCount).countP Op.isReplicate = 0
        ∧ (afterCopyOps E D img wmData opts offsetScale framesCount).countP Op.isBlend
            = framesCount.toNat)
    ∧ (opts.Replicate = true → ¬ framesCount > 1 →
        (afterCopyOps E D img wmData opts offsetScale framesCount).countP Op.isReplicate = 1)
    ∧ (opts.Replicate = true → framesCount > 1 →
        (afterCopyOps E D img wmData opts offsetScale framesCount).countP Op.isReplicate = 2) := by
  refine ⟨?_, ?_, ?_⟩
  · intro hr
    simp [afterCopyOps, blendPhaseOps, hr, List.countP_append, hostOps_counts, blendOps_counts,
      List.countP_cons, Op.isReplicate, Op.isBlend]
  · intro hr hn
    simp [afterCopyOps, blendPhaseOps, hr, hn, List.countP_append, hostOps_counts,
      blendOps_counts, List.countP_cons, Op.isReplicate]
  · intro hr hn
    simp [afterCopyOps, blendPhaseOps, hr, hn, List.countP_append, hostOps_counts,
      List.countP_cons, Op.isReplicate]

theorem transformOps_counts (D : Deps) (img : HostImage) (wmData : ImageData)
    (opts : WatermarkOptions) (offsetScale : ℚ) (framesCount : Int) :
    (transformOps D img wmData opts offsetScale framesCount).countP Op.isReplicate = 0
    ∧ (transformOps D img wmData opts offsetScale framesCount).countP Op.isBlend = 0 := by
  constructor
  · rw [List.countP_eq_zero]
    intro op h
    simp [(transformOps_mem _ _ _ _ _ _ op h).1]
  · rw [List.countP_eq_zero]
    intro op h
    simp [(transformOps_mem _ _ _ _ _ _ op h).2.1]

/-- A prefix of `a ++ x :: b` that does not hold `x` is a prefix of `a`. -/
theorem prefix_of_not_mem {α : Type} (p a b : List α) (x : α) (hp : p <+: a ++ x :: b)
    (hx : x ∉ p) : p <+: a := by
  rcases List.prefix_or_prefix_of_prefix hp (List.prefix_append a (x :: b)) with h | h
  · exact h
  · obtain ⟨q, hq⟩ := h
    subst hq
    have h2 : q <+: x :: b := (List.prefix_append_right_inj a).1 hp
    rcases q with _ | ⟨y, q⟩
    · simp
    · exfalso
      have hy : y = x := (List.cons_prefix_cons.1 h2).1
      subst hy
      exact hx (by simp)

theorem prefix_getElem? {α : Type} (p l : List α) (j : Nat) (x : α) (hp : p <+: l)
    (h : p[j]? = some x) : l[j]? = some x := by
  obtain ⟨t, ht⟩ := hp
  subst ht
  have hj : j < p.length := by
    by_contra hc
    rw [List.getElem?_eq_none (Nat.le_of_not_lt hc)] at h
    cases h
  rw [List.getElem?_append_left hj]
  exact h

theorem getElem?_of_prefix_lt {α : Type} (p l : List α) (i j : Nat) (x : α) (hp : p <+: l)
    (hij : i < j) (hj : j < p.length) (h : l[i]? = some x) : p[i]? = some x := by
  obtain ⟨t, ht⟩ := hp
  subst ht
  rw [List.getElem?_append_left (by omega)] at h
  exact h

theorem callAll_cons_trace {ε : Type} (E : Engine ε) (op : Op) (rest tr : List Op) :
    ∃ p, (callAll E (op :: rest) tr).2 = tr ++ op :: p := by
  simp only [callAll, Exec.andThen, call]
  cases hf : E.fail tr op with
  | none =>
    obtain ⟨p, _, hq⟩ := callAll_prefix E rest (tr ++ [op])
    exact ⟨p, by simpa using hq⟩
  | some e => exact ⟨[], rfl⟩

theorem copy_cond (opts : WatermarkOptions) (framesCount : Int) :
    (opts.Replicate || decide (framesCount > 1)) = true
      ↔ (opts.Replicate = true ∨ framesCount > 1) := by
  simp

/-! ## Claims on the calls of applyWatermark -/

theorem applyWatermark_all_ok {ε : Type} (E : Engine ε) (D : Deps) (img : HostImage)
    (wmData : ImageData) (opts : WatermarkOptions) (offsetScale : ℚ) (framesCount : Int)
    (hok : ∀ tr op, E.fail tr op = none) (hN : framesCount ≠ 0) :
    applyWatermark E D img wmData opts offsetScale framesCount []
      = (.ok (), applyOps E D img wmData opts offsetScale framesCount ++ [Op.clear]) := by
  simp only [applyWatermark, applyWatermarkBody_eq E D img wmData opts offsetScale framesCount hN,
    callAll_all_ok E hok, List.nil_append]

theorem setupOps_no_blend (D : Deps) (img : HostImage) (wmData : ImageData)
    (opts : WatermarkOptions) (offsetScale : ℚ) (framesCount : Int) :
    (setupOps D img wmData opts offsetScale framesCount).countP Op.isBlend = 0 := by
  simp only [setupOps, prepareOps, hostOps, watermarkPipeline, List.countP_append,
    List.map_cons, List.map_nil]
  split <;> split <;> split <;> simp [Op.isBlend, List.countP_cons]

/-- C1 (amended): when every engine call succeeds, `N ≥ 1`, and the fast path
is not taken (`Replicate` unset, or `N = 1`), `applyWatermark` makes the calls
of the set-up, which hold no blend, then exactly `N` blends, the `k`-th at
`left = l0` and `top = t0 + k * (H / N)`, then releases the watermark; no call
on the watermark lies between two blends.  Here `(l0, t0)` is `(0, 0)` for a
replicated watermark and the position `calcPosition` gives for one frame
otherwise. -/
theorem frame_blends {ε : Type} (E : Engine ε) (D : Deps) (img : HostImage)
    (wmData : ImageData) (opts : WatermarkOptions) (offsetScale : ℚ) (framesCount : Int)
    (hok : ∀ tr op, E.fail tr op = none) (hN : framesCount ≥ 1)
    (hpath : ¬ (opts.Replicate = true ∧ framesCount > 1)) :
    applyWatermark E D img wmData opts offsetScale framesCount []
        = (.ok (),
            setupOps D img wmData opts offsetScale framesCount
              ++ (List.range framesCount.toNat).map (fun (k : Nat) =>
                    Op.applyWatermark
                      (placement E D img opts offsetScale framesCount
                        (setupOps D img wmData opts offsetScale framesCount)).1
                      ((placement E D img opts offsetScale framesCount
                        (setupOps D img wmData opts offsetScale framesCount)).2
                          + (k : Int) * Int.tdiv img.Height framesCount)
                      (D.mulFloat64 opts.Opacity D.WatermarkOpacity))
              ++ [Op.clear])
    ∧ (setupOps D img wmData opts offsetScale framesCount).countP Op.isBlend = 0
    ∧ ((applyWatermark E D img wmData opts offsetScale framesCount []).2.countP Op.isBlend
        : Int) = framesCount
    ∧ (opts.Replicate = true →
        placement E D img opts offsetScale framesCount
          (setupOps D img wmData opts offsetScale framesCount) = (0, 0))
    ∧ (opts.Replicate = false →
        placement E D img opts offsetScale framesCount
            (setupOps D img wmData opts offsetScale framesCount)
          = D.calcPosition img.Width (Int.tdiv img.Height framesCount)
              (E.wmWidth (setupOps D img wmData opts offsetScale framesCount))
              (E.wmHeight (setupOps D img wmData opts offsetScale framesCount))
              opts.Gravity offsetScale true) := by
  have hN0 : framesCount ≠ 0 := by omega
  have hcond : (opts.Replicate && decide (framesCount > 1)) = false := by
    cases hr : opts.Replicate with
    | false => rfl
    | true =>
      have : ¬ framesCount > 1 := fun h => hpath ⟨hr, h⟩
      simp [this]
  have hall := applyWatermark_all_ok E D img wmData opts offsetScale framesCount hok hN0
  refine ⟨?_, setupOps_no_blend D img wmData opts offsetScale framesCount, ?_, ?_, ?_⟩
  · rw [hall]
    simp only [applyOps, blendPhaseOps, hcond, blendOps, Bool.false_eq_true, if_false]
  · rw [hall]
    simp only [applyOps, blendPhaseOps, hcond, Bool.false_eq_true, if_false,
      List.countP_append, setupOps_no_blend, (blendOps_counts _ _ _ _ _).1]
    simp only [List.countP_cons, List.countP_nil, Op.isBlend, Bool.false_eq_true, if_false,
      Nat.zero_add, Nat.add_zero]
    exact Int.toNat_of_nonneg (by omega)
  · intro hr
    simp [placement, hr]
  · intro hr
    simp [placement, hr]

/-- Instance of the amended C1: three frames of height 100, a watermark placed
at (4, 6): blends at top 6, 106 and 206. -/
theorem frame_blends_witness :
    (applyWatermark (okEngine 10 10) sampleDeps ⟨100, 300, true⟩ sampleData
        (sampleOpts false 4 6) 1 3 []).2.filter Op.isBlend
      = [Op.applyWatermark 4 6 1, Op.applyWatermark 4 106 1, Op.applyWatermark 4 206 1] := by
  have h := (frame_blends (okEngine 10 10) sampleDeps ⟨100, 300, true⟩ sampleData
    (sampleOpts false 4 6) 1 3 (fun _ _ => rfl) (by decide) (by decide)).1
  rw [h]
  have hs := setupOps_no_blend sampleDeps ⟨100, 300, true⟩ sampleData (sampleOpts false 4 6) 1 3
  have hf : (setupOps sampleDeps ⟨100, 300, true⟩ sampleData (sampleOpts false 4 6) 1
      3).filter Op.isBlend = [] := by
    rw [List.filter_eq_nil_iff]
    intro a ha hb
    have := List.countP_pos_iff.2 ⟨a, ha, hb⟩
    omega
  simp only [List.filter_append, hf, List.nil_append]
  have e1 : Int.toNat 3 = 3 := rfl
  have e2 : Int.tdiv 300 3 = 100 := by decide
  simp [placement, sampleOpts, sampleDeps, e1, e2, List.range_succ, Op.isBlend, List.filter_cons]

/-- Counterexample to C1 as stated: a replicated watermark on a host of height
300 with 3 frames, every call succeeding, is blended once, not 3 times. -/
theorem fast_path_blends_once :
    (applyWatermark (okEngine 10 10) sampleDeps ⟨100, 300, true⟩ sampleData
        (sampleOpts true 0 0) 1 3 []).1 = .ok ()
    ∧ (applyWatermark (okEngine 10 10) sampleDeps ⟨100, 300, true⟩ sampleData
        (sampleOpts true 0 0) 1 3 []).2.countP Op.isBlend = 1
    ∧ ¬ ((applyWatermark (okEngine 10 10) sampleDeps ⟨100, 300, true⟩ sampleData
        (sampleOpts true 0 0) 1 3 []).2.countP Op.isBlend = 3) := by
  refine ⟨rfl, ?_, ?_⟩
  · decide
  · decide

/-- C7: with `Replicate` set and `N > 1`, every call succeeding, the watermark
is loaded and transformed once, copied to memory, tiled to `W x (H / N)` and
stripped; the host is normalised; the watermark is tiled again to `W x H` and
blended once at (0, 0); then it is released. -/
theorem replicate_fast_path {ε : Type} (E : Engine ε) (D : Deps) (img : HostImage)
    (wmData : ImageData) (opts : WatermarkOptions) (offsetScale : ℚ) (framesCount : Int)
    (hok : ∀ tr op, E.fail tr op = none) (hrep : opts.Replicate = true)
    (hN : framesCount > 1) :
    applyWatermark E D img wmData opts offsetScale framesCount []
      = (.ok (),
          [Op.load wmData 1 1 1]
            ++ watermarkPipeline.map (fun s =>
                Op.stage s
                  (watermarkPO D wmData opts img.Width (Int.tdiv img.Height framesCount)
                    offsetScale) wmData)
            ++ [Op.copyMemory, Op.replicate img.Width (Int.tdiv img.Height framesCount),
                Op.stripAll]
            ++ hostOps img
            ++ [Op.replicate img.Width img.Height,
                Op.applyWatermark 0 0 (D.mulFloat64 opts.Opacity D.WatermarkOpacity),
                Op.clear]) := by
  rw [applyWatermark_all_ok E D img wmData opts offsetScale framesCount hok (by omega)]
  simp [applyOps, blendPhaseOps, setupOps, prepareOps, hrep, hN]

/-- Scenario of C7: `Replicate = true`, 3 frames, host 100 by 300. -/
theorem replicate_fast_path_witness :
    (applyWatermark (okEngine 10 10) sampleDeps ⟨100, 300, true⟩ sampleData
        (sampleOpts true 0 0) 1 3 []).2.filter (fun op => op.isReplicate || op.isBlend)
      = [Op.replicate 100 100, Op.replicate 100 300, Op.applyWatermark 0 0 1] := by
  rw [replicate_fast_path (okEngine 10 10) sampleDeps ⟨100, 300, true⟩ sampleData
    (sampleOpts true 0 0) 1 3 (fun _ _ => rfl) rfl (by decide)]
  have e2 : Int.tdiv 300 3 = 100 := by decide
  simp [hostOps, watermarkPipeline, e2, sampleOpts, sampleDeps, Op.isReplicate, Op.isBlend,
    List.filter_cons]

theorem prepareOps_no_host (D : Deps) (wmData : ImageData) (opts : WatermarkOptions)
    (imgWidth imgHeight : Int) (offsetScale : ℚ) (framesCount : Int) :
    (prepareOps D wmData opts imgWidth imgHeight offsetScale framesCount).countP Op.touchesHost
      = 0 := by
  simp only [prepareOps, watermarkPipeline, List.countP_append, List.map_cons, List.map_nil]
  split <;> split <;> simp [Op.touchesHost, List.countP_cons]

theorem prepareWatermark_no_host {ε : Type} (E : Engine ε) (D : Deps) (wmData : ImageData)
    (opts : WatermarkOptions) (imgWidth imgHeight : Int) (offsetScale : ℚ)
    (framesCount : Int) :
    (prepareWatermark E D wmData opts imgWidth imgHeight offsetScale framesCount []).2.countP
      Op.touchesHost = 0 := by
  rw [prepareWatermark_eq]
  obtain ⟨p, hp, hq⟩ := callAll_prefix E
    (prepareOps D wmData opts imgWidth imgHeight offsetScale framesCount) []
  rw [hq, List.nil_append]
  have h1 := hp.sublist.countP_le Op.touchesHost
  rw [prepareOps_no_host] at h1
  omega

/-- C3: when the preparation of the watermark fails (at the load or at any
later step), `applyWatermark` returns that error having made the calls of the
preparation and the release of the watermark only: no colour-profile import,
no colour-space conversion and no blend touches the host image.  The
dispatcher, which runs `applyWatermark` with one frame, returns the same. -/
theorem prepare_failure_leaves_host {ε : Type} (E : Engine ε) (D : Deps) (img : HostImage)
    (wmData : ImageData) (opts : WatermarkOptions) (offsetScale : ℚ) (framesCount : Int)
    (f : Fault ε) (hN : framesCount ≠ 0)
    (hfail : (prepareWatermark E D wmData opts img.Width (Int.tdiv img.Height framesCount)
      offsetScale framesCount []).1 = .error f) :
    applyWatermark E D img wmData opts offsetScale framesCount []
        = (.error f,
            (prepareWatermark E D wmData opts img.Width (Int.tdiv img.Height framesCount)
              offsetScale framesCount []).2 ++ [Op.clear])
    ∧ (applyWatermark E D img wmData opts offsetScale framesCount []).2.countP Op.touchesHost
        = 0
    ∧ (framesCount = 1 → opts.Enabled = true →
        watermark E D (some wmData) offsetScale img opts []
          = applyWatermark E D img wmData opts offsetScale framesCount []) := by
  have hbody : applyWatermark E D img wmData opts offsetScale framesCount []
      = (.error f,
          (prepareWatermark E D wmData opts img.Width (Int.tdiv img.Height framesCount)
            offsetScale framesCount []).2 ++ [Op.clear]) := by
    simp only [applyWatermark, applyWatermarkBody, if_neg hN, Exec.andThen]
    cases hp : prepareWatermark E D wmData opts img.Width (Int.tdiv img.Height framesCount)
      offsetScale framesCount [] with
    | mk r tr1 =>
      rw [hp] at hfail
      simp only at hfail
      subst hfail
      rfl
  refine ⟨hbody, ?_, ?_⟩
  · rw [hbody]
    simp only [List.countP_append, prepareWatermark_no_host]
    simp [Op.touchesHost, List.countP_cons]
  · intro h1 hen
    subst h1
    exact (dispatch_enabled_eq E D wmData offsetScale img opts [] hen)

/-- Scenario of C3: the bytes fail to load; the error 7 comes back and the
only calls are the load and the release. -/
theorem prepare_failure_leaves_host_witness :
    applyWatermark (failingEngine (Op.load sampleData 1 1 1) 7) sampleDeps ⟨100, 300, false⟩
        sampleData (sampleOpts false 0 0) 1 1 []
      = (.error (.engine 7), [Op.load sampleData 1 1 1, Op.clear]) := by
  have h := (prepare_failure_leaves_host (failingEngine (Op.load sampleData 1 1 1) 7) sampleDeps
    ⟨100, 300, false⟩ sampleData (sampleOpts false 0 0) 1 1 (.engine 7) (by decide)
    (by simp [prepareWatermark, Exec.andThen, call, failingEngine])).1
  rw [h]
  simp [prepareWatermark, Exec.andThen, call, failingEngine]

/-- C8: if a call made by the body of `applyWatermark` fails, it is the last
call of the body, its error is the result unchanged, and `applyWatermark` makes
no further call but the release of the watermark. -/
theorem first_error_returned {ε : Type} (E : Engine ε) (D : Deps) (img : HostImage)
    (wmData : ImageData) (opts : WatermarkOptions) (offsetScale : ℚ) (framesCount : Int)
    (i : Nat) (op : Op) (e : ε)
    (hget : (applyWatermarkBody E D img wmData opts offsetScale framesCount []).2[i]? = some op)
    (hfail : E.fail
      ((applyWatermarkBody E D img wmData opts offsetScale framesCount []).2.take i) op
        = some e) :
    i + 1 = (applyWatermarkBody E D img wmData opts offsetScale framesCount []).2.length
    ∧ (applyWatermarkBody E D img wmData opts offsetScale framesCount []).1
        = .error (.engine e)
    ∧ applyWatermark E D img wmData opts offsetScale framesCount []
        = (.error (.engine e),
            (applyWatermarkBody E D img wmData opts offsetScale framesCount []).2.take i
              ++ [op, Op.clear]) := by
  by_cases hN : framesCount = 0
  · subst hN
    simp [applyWatermarkBody] at hget
  · have hlt : i < (applyWatermarkBody E D img wmData opts offsetScale framesCount []).2.length := by
      by_contra hc
      rw [List.getElem?_eq_none (Nat.le_of_not_lt hc)] at hget
      cases hget
    have htake : (applyWatermarkBody E D img wmData opts offsetScale framesCount []).2.take (i + 1)
        = (applyWatermarkBody E D img wmData opts offsetScale framesCount []).2.take i ++ [op] := by
      rw [List.take_succ, hget]
      rfl
    rw [applyWatermarkBody_eq E D img wmData opts offsetScale framesCount hN] at hget hfail htake hlt
    have h := callAll_failfast E _ [] i op e (Nat.zero_le _) hget hfail
    simp only [applyWatermark]
    rw [applyWatermarkBody_eq E D img wmData opts offsetScale framesCount hN]
    refine ⟨h.1, h.2, ?_⟩
    rw [h.2]
    have hall : (callAll E (applyOps E D img wmData opts offsetScale framesCount) []).2
        = (callAll E (applyOps E D img wmData opts offsetScale framesCount) []).2.take i
            ++ [op] := by
      rw [← htake, h.1, List.take_length]
    conv_lhs => rw [hall]
    simp

/-- Instance of C8: the copy to memory fails with error 7 on a replicated
watermark for 3 frames; it is the eighth and last call of the body. -/
theorem first_error_returned_witness :
    applyWatermark (failingEngine Op.copyMemory 7) sampleDeps ⟨100, 300, false⟩ sampleData
        (sampleOpts true 0 0) 1 3 []
      = (.error (.engine 7),
          (applyWatermarkBody (failingEngine Op.copyMemory 7) sampleDeps ⟨100, 300, false⟩
              sampleData (sampleOpts true 0 0) 1 3 []).2.take 7
            ++ [Op.copyMemory, Op.clear])
    ∧ (applyWatermarkBody (failingEngine Op.copyMemory 7) sampleDeps ⟨100, 300, false⟩
          sampleData (sampleOpts true 0 0) 1 3 []).2.length = 8 := by
  have h := first_error_returned (failingEngine Op.copyMemory 7) sampleDeps ⟨100, 300, false⟩
    sampleData (sampleOpts true 0 0) 1 3 7 Op.copyMemory 7 rfl rfl
  exact ⟨h.2.2, h.1.symm⟩

/-! ## Materialisation and tiling -/

/-- C9: in every run of the body of `applyWatermark`, with `ext` the calls it
makes: a copy to memory is made only if `Replicate` or `N > 1`; if so and the
load and the six stages succeeded, the copy is the next call (index 7); every
tiling or blend made when `Replicate` or `N > 1` comes after that copy, which
succeeded; every stage comes before index 7; and when no copy is made, no
tiling is made and at most one blend is. -/
theorem copy_before_reads {ε : Type} (E : Engine ε) (D : Deps) (img : HostImage)
    (wmData : ImageData) (opts : WatermarkOptions) (offsetScale : ℚ) (framesCount : Int) :
    (Op.copyMemory ∈ (applyWatermarkBody E D img wmData opts offsetScale framesCount []).2 →
        (opts.Replicate = true ∨ framesCount > 1))
    ∧ ((opts.Replicate = true ∨ framesCount > 1) → framesCount ≠ 0 →
        (callAll E (transformOps D img wmData opts offsetScale framesCount) []).1 = .ok () →
        (applyWatermarkBody E D img wmData opts offsetScale framesCount []).2[7]?
          = some Op.copyMemory)
    ∧ (∀ (j : Nat) (op : Op),
        (applyWatermarkBody E D img wmData opts offsetScale framesCount []).2[j]? = some op →
        (op.isReplicate = true ∨ op.isBlend = true) →
        (opts.Replicate = true ∨ framesCount > 1) →
          7 < j
          ∧ (applyWatermarkBody E D img wmData opts offsetScale framesCount []).2[7]?
              = some Op.copyMemory
          ∧ E.fail ((applyWatermarkBody E D img wmData opts offsetScale framesCount []).2.take 7)
              Op.copyMemory = none)
    ∧ (∀ (k : Nat) (op : Op),
        (applyWatermarkBody E D img wmData opts offsetScale framesCount []).2[k]? = some op →
        op.isStage = true → k < 7)
    ∧ (Op.copyMemory ∉ (applyWatermarkBody E D img wmData opts offsetScale framesCount []).2 →
        (applyWatermarkBody E D img wmData opts offsetScale framesCount []).2.countP
            Op.isReplicate = 0
        ∧ (applyWatermarkBody E D img wmData opts offsetScale framesCount []).2.countP
            Op.isBlend ≤ 1) := by
  have hpre := body_prefix E D img wmData opts offsetScale framesCount
  have hsplit := applyOps_split E D img wmData opts offsetScale framesCount
  have hlen := transformOps_length D img wmData opts offsetScale framesCount
  refine ⟨?_, ?_, ?_, ?_, ?_⟩
  · intro hmem
    have h1 := hpre.subset hmem
    rw [hsplit] at h1
    simp only [List.mem_append] at h1
    rcases h1 with h1 | h1 | h1
    · exact absurd rfl (transformOps_mem _ _ _ _ _ _ _ h1).2.2
    · by_contra hc
      rw [if_neg (fun h => hc ((copy_cond opts framesCount).1 h))] at h1
      simp at h1
    · exact absurd rfl (afterCopyOps_mem _ _ _ _ _ _ _ _ h1).2
  · intro hc hN hok
    rw [applyWatermarkBody_eq E D img wmData opts offsetScale framesCount hN, hsplit,
      if_pos ((copy_cond opts framesCount).2 hc), callAll_append]
    have htr := callAll_ok_trace E _ [] hok
    simp only [Exec.andThen]
    cases hr : callAll E (transformOps D img wmData opts offsetScale framesCount) [] with
    | mk r tr1 =>
      rw [hr] at hok htr
      simp only at hok htr
      subst hok
      subst htr
      simp only [List.nil_append, List.singleton_append]
      obtain ⟨p, hp⟩ := callAll_cons_trace E Op.copyMemory
        (afterCopyOps E D img wmData opts offsetScale framesCount)
        (transformOps D img wmData opts offsetScale framesCount)
      rw [hp, List.getElem?_append_right (by omega), hlen]
      simp
  · intro j op hget hop hc
    have hN : framesCount ≠ 0 := by
      intro h0
      subst h0
      simp [applyWatermarkBody] at hget
    have hjlt : j < (applyWatermarkBody E D img wmData opts offsetScale framesCount []).2.length := by
      by_contra hcon
      rw [List.getElem?_eq_none (Nat.le_of_not_lt hcon)] at hget
      cases hget
    have h1 := prefix_getElem? _ _ j op hpre hget
    have h7 : (applyOps E D img wmData opts offsetScale framesCount)[7]? = some Op.copyMemory := by
      rw [hsplit, if_pos ((copy_cond opts framesCount).2 hc),
        List.getElem?_append_right (by omega), hlen]
      simp
    have hj : 7 < j := by
      by_contra hcon
      rcases Nat.lt_or_ge j 7 with hlt | hge
      · rw [hsplit, List.getElem?_append_left (by omega)] at h1
        have hm := transformOps_mem _ _ _ _ _ _ op (List.getElem?_mem h1)
        rcases hop with hop | hop
        · rw [hm.1] at hop
          cases hop
        · rw [hm.2.1] at hop
          cases hop
      · have hj7 : j = 7 := by omega
        subst hj7
        rw [h7] at h1
        cases h1
        rcases hop with hop | hop <;> cases hop
    have hext7 := getElem?_of_prefix_lt _ _ 7 j Op.copyMemory hpre hj hjlt h7
    refine ⟨hj, hext7, ?_⟩
    cases hf : E.fail
      ((applyWatermarkBody E D img wmData opts offsetScale framesCount []).2.take 7)
      Op.copyMemory with
    | none => rfl
    | some e =>
      exfalso
      rw [applyWatermarkBody_eq E D img wmData opts offsetScale framesCount hN] at hext7 hf hjlt
      have := (callAll_failfast E _ [] 7 Op.copyMemory e (Nat.zero_le _) hext7 hf).1
      omega
  · intro k op hget hst
    have h1 := prefix_getElem? _ _ k op hpre hget
    by_contra hcon
    rw [hsplit, List.getElem?_append_right (by omega)] at h1
    have hm := List.getElem?_mem h1
    simp only [List.mem_append] at hm
    rcases hm with hm | hm
    · split at hm
      · simp only [List.mem_singleton] at hm
        subst hm
        cases hst
      · simp at hm
    · rw [(afterCopyOps_mem _ _ _ _ _ _ _ _ hm).1] at hst
      cases hst
  · intro hnot
    by_cases hc : (opts.Replicate || decide (framesCount > 1)) = true
    · rw [hsplit, if_pos hc] at hpre
      have hp2 := prefix_of_not_mem _ _ _ _ hpre hnot
      have c1 := hp2.sublist.countP_le Op.isReplicate
      have c2 := hp2.sublist.countP_le Op.isBlend
      rw [(transformOps_counts _ _ _ _ _ _).1] at c1
      rw [(transformOps_counts _ _ _ _ _ _).2] at c2
      omega
    · have hcc : ¬ (opts.Replicate = true ∨ framesCount > 1) :=
        fun h => hc ((copy_cond opts framesCount).2 h)
      have hr : opts.Replicate = false := by
        cases h : opts.Replicate with
        | false => rfl
        | true => exact absurd (Or.inl h) hcc
      have hn : ¬ framesCount > 1 := fun h => hcc (Or.inr h)
      rw [hsplit, if_neg hc] at hpre
      have c1 := hpre.sublist.countP_le Op.isReplicate
      have c2 := hpre.sublist.countP_le Op.isBlend
      simp only [List.countP_append, List.countP_nil, (transformOps_counts _ _ _ _ _ _).1,
        (transformOps_counts _ _ _ _ _ _).2,
        ((afterCopyOps_counts E D img wmData opts offsetScale framesCount).1 hr).1,
        ((afterCopyOps_counts E D img wmData opts offsetScale framesCount).1 hr).2] at c1 c2
      have : framesCount.toNat ≤ 1 := by omega
      omega

/-- Instance of C9: two frames and no tiling; the copy to memory is the call
at index 7 and both blends come after it. -/
theorem copy_before_reads_witness :
    (applyWatermarkBody (okEngine 10 10) sampleDeps ⟨100, 300, true⟩ sampleData
        (sampleOpts false 0 0) 1 2 []).2[7]? = some Op.copyMemory
    ∧ (7 < 10
        ∧ (applyWatermarkBody (okEngine 10 10) sampleDeps ⟨100, 300, true⟩ sampleData
            (sampleOpts false 0 0) 1 2 []).2[7]? = some Op.copyMemory
        ∧ (okEngine 10 10).fail
            ((applyWatermarkBody (okEngine 10 10) sampleDeps ⟨100, 300, true⟩ sampleData
              (sampleOpts false 0 0) 1 2 []).2.take 7) Op.copyMemory = none) :=
  ⟨(copy_before_reads (okEngine 10 10) sampleDeps ⟨100, 300, true⟩ sampleData
      (sampleOpts false 0 0) 1 2).2.1 (Or.inr (by decide)) (by decide) rfl,
   (copy_before_reads (okEngine 10 10) sampleDeps ⟨100, 300, true⟩ sampleData
      (sampleOpts false 0 0) 1 2).2.2.1 10 (Op.applyWatermark 0 0 1)
      (by
        have e : Int.toNat 2 = 2 := rfl
        simp [applyWatermarkBody, prepareWatermark, pipelineRun, watermarkPipeline, call,
          Exec.andThen, Exec.ret, okEngine, sampleOpts, sampleDeps, frameLoop, e])
      (Or.inr rfl) (Or.inr (by decide))⟩

/-- C10 (amended): a call with `Replicate` unset or `N ≤ 1` tiles the watermark
at most once, so the two tilings are never both applied.  With `Replicate` set
and `N > 1` they are both applied, by design: when every call succeeds the
tilings made are the one of the preparation, to `W x (H / N)`, then the one of
the fast path, to `W x H`, on the same watermark image. -/
theorem tiling_once_off_fast_path {ε : Type} (E : Engine ε) (D : Deps) (img : HostImage)
    (wmData : ImageData) (opts : WatermarkOptions) (offsetScale : ℚ) (framesCount : Int) :
    (¬ (opts.Replicate = true ∧ framesCount > 1) →
        (applyWatermark E D img wmData opts offsetScale framesCount []).2.countP Op.isReplicate
          ≤ 1)
    ∧ ((∀ tr op, E.fail tr op = none) → opts.Replicate = true → framesCount > 1 →
        (applyWatermark E D img wmData opts offsetScale framesCount []).2.filter Op.isReplicate
          = [Op.replicate img.Width (Int.tdiv img.Height framesCount),
             Op.replicate img.Width img.Height]) := by
  constructor
  · intro hpath
    have hpre := body_prefix E D img wmData opts offsetScale framesCount
    have c1 := hpre.sublist.countP_le Op.isReplicate
    have hclear : (applyWatermark E D img wmData opts offsetScale framesCount []).2.countP
        Op.isReplicate
        = (applyWatermarkBody E D img wmData opts offsetScale framesCount []).2.countP
            Op.isReplicate := by
      simp [applyWatermark, List.countP_append, List.countP_cons, Op.isReplicate]
    rw [hclear]
    rw [applyOps_split] at c1
    have hcp : List.countP Op.isReplicate
        (if (opts.Replicate || decide (framesCount > 1)) = true then [Op.copyMemory] else [])
        = 0 := by
      split <;> simp [List.countP_cons, Op.isReplicate]
    simp only [List.countP_append, (transformOps_counts _ _ _ _ _ _).1, hcp] at c1
    cases hr : opts.Replicate with
    | false =>
      rw [((afterCopyOps_counts E D img wmData opts offsetScale framesCount).1 hr).1] at c1
      omega
    | true =>
      have hn : ¬ framesCount > 1 := fun h => hpath ⟨hr, h⟩
      rw [(afterCopyOps_counts E D img wmData opts offsetScale framesCount).2.1 hr hn] at c1
      omega
  · intro hok hr hn
    rw [applyWatermark_all_ok E D img wmData opts offsetScale framesCount hok (by omega)]
    simp only [applyOps, blendPhaseOps, setupOps, prepareOps, hostOps, watermarkPipeline, hr, hn,
      Bool.true_or, Bool.true_and, decide_True, if_true, List.map_cons, List.map_nil]
    split <;> simp [List.filter_cons, Op.isReplicate]

/-- Instance of the amended C10: one frame, replicated watermark: one tiling. -/
theorem tiling_once_off_fast_path_witness :
    (applyWatermark (okEngine 10 10) sampleDeps ⟨100, 300, true⟩ sampleData
        (sampleOpts true 0 0) 1 1 []).2.countP Op.isReplicate ≤ 1 :=
  (tiling_once_off_fast_path (okEngine 10 10) sampleDeps ⟨100, 300, true⟩ sampleData
    (sampleOpts true 0 0) 1 1).1 (by decide)

/-- Counterexample to C10 as stated: a replicated watermark on a 3-frame host
of height 300 is tiled to 100 x 100 by the preparation and then to 100 x 300
by the fast path. -/
theorem tiling_twice_on_fast_path :
    (applyWatermark (okEngine 10 10) sampleDeps ⟨100, 300, true⟩ sampleData
        (sampleOpts true 0 0) 1 3 []).2.filter Op.isReplicate
      = [Op.replicate 100 100, Op.replicate 100 300] := by
  decide

end Processing
